import Mathlib

/-
Verification development for the slicely lease manager
(src/slicely/_slicely.py).

Shallow embedding conventions:
  - Instants and durations are natural numbers of milliseconds (abbrev Ms).
  - Python datetime values become Ms; timedelta values become Ms durations.
  - The release-time field of the manager is either the -1 sentinel
    INF_RELEASE_TIME (modelled as RT.inf) or a concrete instant RT.time t.
  - The engine (plyvel) handle is Option Unit: some means an open handle.
  - Engine open attempts may fail transiently; we model the outcomes of the
    successive open attempts as a list of Booleans (the oracle).  When the
    oracle is exhausted the retry loop of acquire stops with failure (the
    modelled engine offers no further attempts); every theorem below fixes
    the oracle it needs explicitly.
  - All manager operations run under the single condition-variable lock of
    the instance (lock_deco / _from_outside plumbing), including the sleeps
    inside acquire, so each operation is one atomic step; the maintenance
    thread body between two waits is likewise one atomic step
    (auto_release_step below).
  - The decorated operations raise LevelDBAcquisitionFailure on acquisition
    failure; this is modelled with Except Unit.
-/

namespace Slicely

abbrev Ms := Nat

/-- Release-time field of the manager: the INF_RELEASE_TIME sentinel (-1 in
the source) or a concrete instant in milliseconds. -/
inductive RT
  | inf
  | time (t : Ms)
deriving DecidableEq

/-- INF_RELEASE_TIME sentinel from the source (the integer -1). -/
def INF_RELEASE_TIME : Int := -1

/-- Argument passed to _set_release_time: a Python int or float (seconds in
the source, milliseconds here), a timedelta, or a datetime instant. -/
inductive RTArg
  | num (s : Int)
  | delta (d : Ms)
  | instant (t : Ms)
deriving DecidableEq

/-- Python timedelta.seconds of a nonnegative duration of d milliseconds:
the whole-second component after the days are removed. -/
def tdSeconds (d : Ms) : Nat := d / 1000 % 86400

/-- The source compares the integer timedelta.seconds field with the float
0.1; over the integers, s is greater than 0.1 exactly when 10 * s is
greater than 1. -/
def secGtTenth (d : Ms) : Bool := decide (1 < 10 * tdSeconds d)

/-- Python falsiness of `x or d` for an optional numeric x: None and 0 both
fall back to the default d. -/
def pyOr (x : Option Int) (d : Int) : Int :=
  match x with
  | none => d
  | some v => if v = 0 then d else v

/-- State of one DBUnit instance.  The lock and the maintenance thread
object are concurrency plumbing with no data content; the maintenance
thread body appears as auto_release_step. -/
structure DBUnit where
  path : String
  default_timeout : Int
  _auto_release_interval : Int
  _retry_interval : Nat
  _db : Option Unit
  _release_time : RT
  is_closed : Bool
deriving DecidableEq

/-- DBUnit.__init__ (the source defaults are 5 s auto release interval,
0.1 s retry interval, 5 s timeout, i.e. 5000/100/5000 in Ms). -/
def DBUnit.init (path : String) (auto_release_interval : Int)
    (retry_interval : Nat) (default_timeout : Int) : DBUnit :=
  { path := path
    default_timeout := default_timeout
    _auto_release_interval := auto_release_interval
    _retry_interval := retry_interval
    _db := none
    _release_time := RT.inf
    is_closed := false }

/-- Body of the elif chain of _set_release_time once the argument has been
turned into a concrete instant t: the update is stored (and the condition
variable notified) when the current release time is the sentinel, or when
the new instant differs from the current one with a timedelta whose seconds
field exceeds 0.1. -/
def debounce_update (u : DBUnit) (t : Ms) : DBUnit × Bool :=
  match u._release_time with
  | RT.inf => ({ u with _release_time := RT.time t }, true)
  | RT.time cur =>
      if (decide (cur < t) && secGtTenth (t - cur))
          || (decide (t < cur) && secGtTenth (cur - t)) then
        ({ u with _release_time := RT.time t }, true)
      else (u, false)

/-- DBUnit._set_release_time.  The source first compares the argument with
INF_RELEASE_TIME by value (only the numeric argument -1 can match), then
converts an int or float to an instant now + max(0, s); a timedelta
argument is converted to an instant but then falls through the
if/elif chain with nothing stored; a datetime argument goes through the
debounce.  The Boolean result records whether the condition variable was
notified. -/
def DBUnit.set_release_time (u : DBUnit) (arg : RTArg) (now : Ms) :
    DBUnit × Bool :=
  match arg with
  | RTArg.num s =>
      if s = INF_RELEASE_TIME then ({ u with _release_time := RT.inf }, false)
      else debounce_update u (now + (max 0 s).toNat)
  | RTArg.delta _ => (u, false)
  | RTArg.instant t => debounce_update u t

/-- DBUnit.is_acquired. -/
def DBUnit.is_acquired (u : DBUnit) : Bool := u._db.isSome

/-- DBUnit.release: when the handle is open, set the release time to the
current instant. -/
def DBUnit.release (u : DBUnit) (now : Ms) : DBUnit :=
  if u.is_acquired then (u.set_release_time (RTArg.instant now) now).1 else u

/-- Retry loop of DBUnit.acquire.  Each iteration runs when it is the first
one or the time limit has not passed; an attempt with an open handle only
stores the release interval and succeeds; otherwise one oracle entry
decides the engine open attempt, and a failed attempt sleeps
_retry_interval before the next iteration.  The third component of the
result is the instant at which the call returns. -/
def acquireLoop (u : DBUnit) (ri : Int) (time_limit : Ms)
    (oracle : List Bool) (now : Ms) (first : Bool) : DBUnit × Bool × Ms :=
  if first || decide (time_limit > now) then
    if u.is_acquired then ((u.set_release_time (RTArg.num ri) now).1, true, now)
    else
      match oracle with
      | [] => (u, false, now)
      | b :: rest =>
          if b then
            ((({ u with _db := some () }).set_release_time
                (RTArg.num ri) now).1, true, now)
          else
            acquireLoop u ri time_limit rest (now + u._retry_interval) false
  else (u, false, now)

/-- DBUnit.acquire.  Note the Python falsiness: a timeout of 0 and a
release interval of 0 both fall back to the instance defaults, exactly as
`timeout or self.default_timeout` and
`release_interval or self._auto_release_interval` do in the source. -/
def DBUnit.acquire (u : DBUnit) (release_interval : Option Int)
    (tm : Option Int) (oracle : List Bool) (now : Ms) : DBUnit × Bool × Ms :=
  let t : Int := max (pyOr tm u.default_timeout) 0
  let time_limit : Ms := now + t.toNat
  let ri : Int := pyOr release_interval u._auto_release_interval
  acquireLoop u ri time_limit oracle now true

/-- DBUnit.suspend_releaser. -/
def DBUnit.suspend_releaser (u : DBUnit) (acq : Bool) (tm : Option Int)
    (oracle : List Bool) (now : Ms) : DBUnit :=
  if u.is_acquired then (u.set_release_time (RTArg.num INF_RELEASE_TIME) now).1
  else if acq then (u.acquire (some INF_RELEASE_TIME) tm oracle now).1
  else u

/-- DBUnit.restart_releaser. -/
def DBUnit.restart_releaser (u : DBUnit) (ri : Option Int) (acq : Bool)
    (tm : Option Int) (oracle : List Bool) (now : Ms) : DBUnit :=
  if u.is_acquired then
    (u.set_release_time (RTArg.num (pyOr ri u._auto_release_interval)) now).1
  else if acq then (u.acquire ri tm oracle now).1
  else u

/-- DBUnit.close, caller side: set is_closed and release.  The join on the
maintenance thread is represented by subsequent auto_release_step events. -/
def DBUnit.close (u : DBUnit) (now : Ms) : DBUnit :=
  ({ u with is_closed := true }).release now

/-- DBUnit._wait_predicate: the maintenance loop keeps waiting while the
handle is absent, or the release time is the INF sentinel, or the release
time has not yet passed. -/
def DBUnit.wait_predicate (u : DBUnit) (now : Ms) : Bool :=
  match u._db with
  | none => true
  | some _ =>
      match u._release_time with
      | RT.inf => true
      | RT.time t => decide (t > now)

/-- One body of DBUnit._auto_release between two waits: when the wait
predicate holds the thread only waits; otherwise it closes the handle,
clears it and resets the release time to the INF sentinel. -/
def DBUnit.auto_release_step (u : DBUnit) (now : Ms) : DBUnit :=
  if u.wait_predicate now then u
  else { u with _db := none, _release_time := RT.inf }

/-- DBUnit.__getstate__ returns exactly these four configuration fields. -/
structure PickleState where
  default_timeout : Int
  path : String
  _auto_release_interval : Int
  _retry_interval : Nat
deriving DecidableEq

/-- DBUnit.__getstate__. -/
def DBUnit.__getstate__ (u : DBUnit) : PickleState :=
  { default_timeout := u.default_timeout
    path := u.path
    _auto_release_interval := u._auto_release_interval
    _retry_interval := u._retry_interval }

/-- DBUnit.__setstate__: restore the four configuration fields and build
fresh runtime state (no handle, INF sentinel release time, not closed, a
fresh lock and a fresh maintenance thread). -/
def DBUnit.__setstate__ (s : PickleState) : DBUnit :=
  { path := s.path
    default_timeout := s.default_timeout
    _auto_release_interval := s._auto_release_interval
    _retry_interval := s._retry_interval
    _db := none
    _release_time := RT.inf
    is_closed := false }

/-
Engine model: an association list of key/value pairs, newest first, as the
visible on-disk content of the plyvel store.  The decorated operations
guarantee an open handle before any engine access, so no model of the
`self._db or \x7b\x7d` property fallback is needed here.
-/

abbrev Eng := List (Nat × Nat)

/-- Engine get with default, as plyvel Handle.get(key, default). -/
def engGet (e : Eng) (k : Nat) (dflt : Option Nat) : Option Nat :=
  match e.find? (fun p => p.1 == k) with
  | some p => some p.2
  | none => dflt

/-- Commit a list of buffered puts to the engine, in buffer order. -/
def engWrite (e : Eng) (ops : List (Nat × Nat)) : Eng :=
  ops.foldl (fun acc kv => kv :: acc) e

/-- Engine delete of a key. -/
def engDelete (e : Eng) (k : Nat) : Eng :=
  e.filter (fun p => p.1 != k)

/-- DBUnit.get decorated with load_leveldb_deco(): acquire with the default
release interval and default timeout; on failure raise
LevelDBAcquisitionFailure (Except.error) with no engine access; on success
delegate to the engine. -/
def DBUnit.get (u : DBUnit) (eng : Eng) (k : Nat) (dflt : Option Nat)
    (oracle : List Bool) (now : Ms) : Except Unit (DBUnit × Option Nat × Ms) :=
  match u.acquire none none oracle now with
  | (u', true, n') => Except.ok (u', engGet eng k dflt, n')
  | (_, false, _) => Except.error ()

/-- DBUnit.put decorated with load_leveldb_deco().  The second component is
the engine content after the call: unchanged when acquisition fails. -/
def DBUnit.put (u : DBUnit) (eng : Eng) (k v : Nat) (oracle : List Bool)
    (now : Ms) : Except Unit (DBUnit × Ms) × Eng :=
  match u.acquire none none oracle now with
  | (u', true, n') => (Except.ok (u', n'), (k, v) :: eng)
  | (_, false, _) => (Except.error (), eng)

/-- DBUnit.delete decorated with load_leveldb_deco(). -/
def DBUnit.delete (u : DBUnit) (eng : Eng) (k : Nat) (oracle : List Bool)
    (now : Ms) : Except Unit (DBUnit × Ms) × Eng :=
  match u.acquire none none oracle now with
  | (u', true, n') => (Except.ok (u', n'), engDelete eng k)
  | (_, false, _) => (Except.error (), eng)

/-- DBUnit.__enter__ decorated with
load_leveldb_deco(release_interval=INF_RELEASE_TIME): an indefinite acquire
with the default timeout. -/
def DBUnit.__enter__ (u : DBUnit) (oracle : List Bool) (now : Ms) :
    Except Unit (DBUnit × Ms) :=
  match u.acquire (some INF_RELEASE_TIME) none oracle now with
  | (u', true, n') => Except.ok (u', n')
  | (_, false, _) => Except.error ()

/-- DBUnit.__exit__: when an exception is present the bare raise re-raises
it at once (second component true) and release is never reached; otherwise
release runs. -/
def DBUnit.__exit__ (u : DBUnit) (excPresent : Bool) (now : Ms) :
    DBUnit × Bool :=
  if excPresent then (u, true)
  else (u.release now, false)

/-- Scoped batch: the bound manager is passed explicitly; wb holds the
transaction and sync flags and the buffered puts of the underlying engine
batch object. -/
structure WriteBatch where
  transaction : Bool
  sync : Bool
  buffer : List (Nat × Nat)
deriving DecidableEq

/-- WriteBatch.put: buffer one write, no lease effect. -/
def WriteBatch.put (b : WriteBatch) (k v : Nat) : WriteBatch :=
  { b with buffer := b.buffer ++ [(k, v)] }

/-- WriteBatch.write: commit the buffered writes to the engine, then
release the lease of the bound manager. -/
def WriteBatch.write (b : WriteBatch) (u : DBUnit) (eng : Eng) (now : Ms) :
    DBUnit × Eng :=
  (u.release now, engWrite eng b.buffer)

/-- WriteBatch.__enter__: suspend_releaser on the bound manager (with the
source defaults acquire=True, timeout=None). -/
def WriteBatch.__enter__ (_b : WriteBatch) (u : DBUnit) (oracle : List Bool)
    (now : Ms) : DBUnit :=
  u.suspend_releaser true none oracle now

/-- WriteBatch.__exit__: a transactional batch with an in-scope exception
clears the buffer and returns at once (no write, no release); every other
exit commits via write (which releases) and then clears the buffer. -/
def WriteBatch.__exit__ (b : WriteBatch) (u : DBUnit) (eng : Eng)
    (excPresent : Bool) (now : Ms) : WriteBatch × DBUnit × Eng :=
  if b.transaction && excPresent then
    ({ b with buffer := [] }, u, eng)
  else
    let r := b.write u eng now
    ({ b with buffer := [] }, r.1, r.2)

/-- DBUnit.write_batch decorated with
load_leveldb_deco(release_interval=INF_RELEASE_TIME): indefinite acquire,
then a fresh WriteBatch bound to this manager. -/
def DBUnit.write_batch (u : DBUnit) (transaction sync : Bool)
    (oracle : List Bool) (now : Ms) : Except Unit (WriteBatch × DBUnit × Ms) :=
  match u.acquire (some INF_RELEASE_TIME) none oracle now with
  | (u', true, n') =>
      Except.ok ({ transaction := transaction, sync := sync, buffer := [] },
        u', n')
  | (_, false, _) => Except.error ()

/-- Scoped iterator object: the iteration parameters and whether the
underlying engine cursor is attached (self.iterator is not None). -/
structure Iterator where
  include_key : Bool
  include_value : Bool
  iterator : Bool
deriving DecidableEq

/-- Iterator.close: release the lease of the bound manager and detach the
cursor. -/
def Iterator.close (it : Iterator) (u : DBUnit) (now : Ms) :
    Iterator × DBUnit :=
  ({ it with iterator := false }, u.release now)

/-- Iterator.__del__: the finalizer closes only when a cursor is attached;
an iterator that was never advanced has none and the finalizer does
nothing. -/
def Iterator.__del__ (it : Iterator) (u : DBUnit) (now : Ms) :
    Iterator × DBUnit :=
  if it.iterator then it.close u now else (it, u)

/-- DBUnit.iterator decorated with
load_leveldb_deco(release_interval=INF_RELEASE_TIME): indefinite acquire,
then a fresh Iterator object whose cursor is not yet attached (the
generator body of Iterator runs only on the first advance). -/
def DBUnit.iterator (u : DBUnit) (include_key include_value : Bool)
    (oracle : List Bool) (now : Ms) : Except Unit (Iterator × DBUnit × Ms) :=
  match u.acquire (some INF_RELEASE_TIME) none oracle now with
  | (u', true, n') =>
      Except.ok
        ({ include_key := include_key, include_value := include_value,
           iterator := false }, u', n')
  | (_, false, _) => Except.error ()

/-
Transition system on the manager state.  Every mutation of a DBUnit in the
source goes through one of these events: the decorated operations and
__enter__ mutate only through acquire; __exit__, WriteBatch.write and
Iterator.close mutate only through release; WriteBatch.__enter__ and the
first advance of an Iterator mutate through suspend_releaser or acquire;
close is the caller side of DBUnit.close; auto_release_step is one body of
the maintenance loop.
-/

inductive Ev
  | acquireEv (ri tm : Option Int) (oracle : List Bool) (now : Ms)
  | releaseEv (now : Ms)
  | suspendEv (acq : Bool) (tm : Option Int) (oracle : List Bool) (now : Ms)
  | restartEv (ri : Option Int) (acq : Bool) (tm : Option Int)
      (oracle : List Bool) (now : Ms)
  | closeEv (now : Ms)
  | autoReleaseEv (now : Ms)

/-- One manager step. -/
def stepEv (u : DBUnit) : Ev → DBUnit
  | Ev.acquireEv ri tm o n => (u.acquire ri tm o n).1
  | Ev.releaseEv n => u.release n
  | Ev.suspendEv acq tm o n => u.suspend_releaser acq tm o n
  | Ev.restartEv ri acq tm o n => u.restart_releaser ri acq tm o n
  | Ev.closeEv n => u.close n
  | Ev.autoReleaseEv n => u.auto_release_step n

/-- Run a list of events from a start state. -/
def runEv (u : DBUnit) (evs : List Ev) : DBUnit := evs.foldl stepEv u

/-- The handle/deadline invariant of the manager: an absent handle forces
the INF sentinel release time (no concrete instant is ever held without an
open handle). -/
def dbInv (u : DBUnit) : Prop := u._db = none → u._release_time = RT.inf

/-- Sample manager with the source default configuration. -/
def sampleInit : DBUnit := DBUnit.init "p" 5000 100 5000

/-- Sample manager after one default acquire at instant 0: handle open,
release time 5000. -/
def sampleOpen : DBUnit := runEv sampleInit [Ev.acquireEv none none [true] 0]

/-- Sample manager after one indefinite acquire at instant 0: handle open,
release time the INF sentinel. -/
def sampleSuspended : DBUnit :=
  runEv sampleInit [Ev.acquireEv (some (-1)) none [true] 0]

theorem debounce_update_db (u : DBUnit) (t : Ms) :
    ((debounce_update u t).1)._db = u._db := by
  unfold debounce_update
  cases hrt : u._release_time with
  | inf => rfl
  | time cur => dsimp only; split <;> rfl

theorem debounce_update_closed (u : DBUnit) (t : Ms) :
    ((debounce_update u t).1).is_closed = u.is_closed := by
  unfold debounce_update
  cases hrt : u._release_time with
  | inf => rfl
  | time cur => dsimp only; split <;> rfl

theorem srt_db (u : DBUnit) (a : RTArg) (n : Ms) :
    ((u.set_release_time a n).1)._db = u._db := by
  unfold DBUnit.set_release_time
  cases a with
  | num s => dsimp only; split <;> first | rfl | exact debounce_update_db _ _
  | delta d => rfl
  | instant t => exact debounce_update_db _ _

theorem srt_closed (u : DBUnit) (a : RTArg) (n : Ms) :
    ((u.set_release_time a n).1).is_closed = u.is_closed := by
  unfold DBUnit.set_release_time
  cases a with
  | num s =>
      dsimp only; split <;> first | rfl | exact debounce_update_closed _ _
  | delta d => rfl
  | instant t => exact debounce_update_closed _ _

theorem acquireLoop_cases (u : DBUnit) (ri : Int) (tl : Ms)
    (oracle : List Bool) (now : Ms) (first : Bool) :
    ((acquireLoop u ri tl oracle now first).1.is_closed = u.is_closed)
    ∧ ((acquireLoop u ri tl oracle now first).2.1 = false →
        (acquireLoop u ri tl oracle now first).1 = u)
    ∧ ((acquireLoop u ri tl oracle now first).2.1 = true →
        ((acquireLoop u ri tl oracle now first).1)._db.isSome = true) := by
  induction oracle generalizing now first with
  | nil =>
      unfold acquireLoop
      split
      · split
        · rename_i hacq
          unfold DBUnit.is_acquired at hacq
          exact ⟨srt_closed u _ now, by simp, fun _ => by rw [srt_db]; exact hacq⟩
        · exact ⟨rfl, fun _ => rfl, by simp⟩
      · exact ⟨rfl, fun _ => rfl, by simp⟩
  | cons b rest ih =>
      unfold acquireLoop
      split
      · split
        · rename_i hacq
          unfold DBUnit.is_acquired at hacq
          exact ⟨srt_closed u _ now, by simp, fun _ => by rw [srt_db]; exact hacq⟩
        · dsimp only
          cases b with
          | true =>
              rw [if_pos rfl]
              refine ⟨?_, by simp, fun _ => ?_⟩
              · rw [srt_closed]
              · rw [srt_db]; rfl
          | false =>
              rw [if_neg (by simp)]
              exact ih _ _
      · exact ⟨rfl, fun _ => rfl, by simp⟩

theorem acquire_cases (u : DBUnit) (ri tm : Option Int) (oracle : List Bool)
    (now : Ms) :
    ((u.acquire ri tm oracle now).1.is_closed = u.is_closed)
    ∧ ((u.acquire ri tm oracle now).2.1 = false →
        (u.acquire ri tm oracle now).1 = u)
    ∧ ((u.acquire ri tm oracle now).2.1 = true →
        ((u.acquire ri tm oracle now).1)._db.isSome = true) := by
  unfold DBUnit.acquire
  exact acquireLoop_cases u _ _ oracle now true

theorem acquire_inv (u : DBUnit) (ri tm : Option Int) (oracle : List Bool)
    (now : Ms) (h : dbInv u) : dbInv (u.acquire ri tm oracle now).1 := by
  rcases acquire_cases u ri tm oracle now with ⟨_, hfail, hsucc⟩
  cases hs : (u.acquire ri tm oracle now).2.1 with
  | false => rw [hfail hs]; exact h
  | true =>
      intro hdb
      have hsome := hsucc hs
      rw [hdb] at hsome
      simp at hsome

theorem release_inv (u : DBUnit) (now : Ms) (h : dbInv u) :
    dbInv (u.release now) := by
  unfold DBUnit.release
  split
  · rename_i hacq
    intro hdb
    rw [srt_db] at hdb
    unfold DBUnit.is_acquired at hacq
    rw [hdb] at hacq
    simp at hacq
  · exact h

theorem suspend_inv (u : DBUnit) (acq : Bool) (tm : Option Int)
    (oracle : List Bool) (now : Ms) (h : dbInv u) :
    dbInv (u.suspend_releaser acq tm oracle now) := by
  unfold DBUnit.suspend_releaser
  split
  · rename_i hacq
    intro hdb
    rw [srt_db] at hdb
    unfold DBUnit.is_acquired at hacq
    rw [hdb] at hacq
    simp at hacq
  · split
    · exact acquire_inv u _ _ _ _ h
    · exact h

theorem restart_inv (u : DBUnit) (ri : Option Int) (acq : Bool)
    (tm : Option Int) (oracle : List Bool) (now : Ms) (h : dbInv u) :
    dbInv (u.restart_releaser ri acq tm oracle now) := by
  unfold DBUnit.restart_releaser
  split
  · rename_i hacq
    intro hdb
    rw [srt_db] at hdb
    unfold DBUnit.is_acquired at hacq
    rw [hdb] at hacq
    simp at hacq
  · split
    · exact acquire_inv u _ _ _ _ h
    · exact h

theorem close_inv (u : DBUnit) (now : Ms) (h : dbInv u) :
    dbInv (u.close now) := by
  unfold DBUnit.close
  exact release_inv _ now (fun hdb => h hdb)

theorem auto_release_inv (u : DBUnit) (now : Ms) (h : dbInv u) :
    dbInv (u.auto_release_step now) := by
  unfold DBUnit.auto_release_step
  split
  · exact h
  · intro _; rfl

theorem stepEv_inv (u : DBUnit) (e : Ev) (h : dbInv u) :
    dbInv (stepEv u e) := by
  cases e with
  | acquireEv ri tm o n => exact acquire_inv u ri tm o n h
  | releaseEv n => exact release_inv u n h
  | suspendEv acq tm o n => exact suspend_inv u acq tm o n h
  | restartEv ri acq tm o n => exact restart_inv u ri acq tm o n h
  | closeEv n => exact close_inv u n h
  | autoReleaseEv n => exact auto_release_inv u n h

theorem runEv_inv (u : DBUnit) (evs : List Ev) (h : dbInv u) :
    dbInv (runEv u evs) := by
  induction evs generalizing u with
  | nil => exact h
  | cons e rest ih => exact ih (stepEv u e) (stepEv_inv u e h)

theorem release_inf_sets_now (u : DBUnit) (now : Ms)
    (hdb : u._db.isSome = true) (hrt : u._release_time = RT.inf) :
    (u.release now)._release_time = RT.time now := by
  unfold DBUnit.release DBUnit.is_acquired
  rw [hdb]
  simp [DBUnit.set_release_time, debounce_update, hrt]

theorem acquire_cons_true (u : DBUnit) (ri tm : Option Int)
    (rest : List Bool) (now : Ms) :
    (u.acquire ri tm (true :: rest) now).2.1 = true := by
  unfold DBUnit.acquire acquireLoop
  rw [if_pos (by simp)]
  split <;> rfl

theorem acquireLoop_expired (u : DBUnit) (ri : Int) (tl : Ms)
    (oracle : List Bool) (now : Ms) (h : ¬ tl > now) :
    acquireLoop u ri tl oracle now false = (u, false, now) := by
  cases oracle <;>
    · unfold acquireLoop
      rw [if_neg (by simp [h])]

theorem acquireLoop_first_fail (u : DBUnit) (ri : Int) (rest : List Bool)
    (now : Nat) (hdb : u._db = none) :
    acquireLoop u ri now (false :: rest) now true =
      (u, false, now + u._retry_interval) := by
  unfold acquireLoop
  rw [if_pos (by simp)]
  rw [if_neg (by unfold DBUnit.is_acquired; rw [hdb]; simp)]
  exact acquireLoop_expired u _ _ rest _
    (Nat.not_lt.mpr (Nat.le_add_right now u._retry_interval))

theorem debounce_update_time (u : DBUnit) (cur t : Ms)
    (h : u._release_time = RT.time cur) :
    debounce_update u t =
      if (decide (cur < t) && secGtTenth (t - cur))
          || (decide (t < cur) && secGtTenth (cur - t)) then
        ({ u with _release_time := RT.time t }, true)
      else (u, false) := by
  unfold debounce_update
  rw [h]

theorem debounce_update_inf (u : DBUnit) (t : Ms)
    (h : u._release_time = RT.inf) :
    debounce_update u t = ({ u with _release_time := RT.time t }, true) := by
  unfold debounce_update
  rw [h]

theorem debounce_cond_iff (cur t : Nat) :
    (((decide (cur < t) && secGtTenth (t - cur))
      || (decide (t < cur) && secGtTenth (cur - t))) = true) ↔
      (1 ≤ (t - cur) / 1000 % 86400 ∨ 1 ≤ (cur - t) / 1000 % 86400) := by
  unfold secGtTenth tdSeconds
  simp only [Bool.or_eq_true, Bool.and_eq_true, decide_eq_true_eq]
  omega

theorem acquire_acquired_success (u : DBUnit) (ri tm : Option Int)
    (oracle : List Bool) (now : Nat) (hdb : u.is_acquired = true) :
    u.acquire ri tm oracle now =
      ((u.set_release_time (RTArg.num (pyOr ri u._auto_release_interval))
          now).1, true, now) := by
  show acquireLoop u (pyOr ri u._auto_release_interval)
      (now + (max (pyOr tm u.default_timeout) 0).toNat) oracle now true = _
  cases oracle <;>
    · unfold acquireLoop
      rw [if_pos (by simp)]
      rw [if_pos hdb]

theorem acquire_open_success (u : DBUnit) (ri tm : Option Int)
    (rest : List Bool) (now : Nat) (hdb : u._db = none) :
    u.acquire ri tm (true :: rest) now =
      ((({ u with _db := some () }).set_release_time
          (RTArg.num (pyOr ri u._auto_release_interval)) now).1, true, now) := by
  show acquireLoop u (pyOr ri u._auto_release_interval)
      (now + (max (pyOr tm u.default_timeout) 0).toNat) (true :: rest) now
      true = _
  unfold acquireLoop
  rw [if_pos (by simp)]
  rw [if_neg (by unfold DBUnit.is_acquired; rw [hdb]; simp)]
  rfl

theorem srt_num_inf (u : DBUnit) (s : Int) (now : Nat)
    (hrt : u._release_time = RT.inf) (hs : s ≠ INF_RELEASE_TIME) :
    u.set_release_time (RTArg.num s) now =
      ({ u with _release_time := RT.time (now + (max 0 s).toNat) }, true) := by
  show (if s = INF_RELEASE_TIME then ({ u with _release_time := RT.inf }, false)
    else debounce_update u (now + (max 0 s).toNat)) = _
  rw [if_neg hs]
  exact debounce_update_inf u _ hrt

/-- C2 counterexample: after an acquire, a close at instant 10 and the
maintenance close at instant 20, the manager is closed with no handle, yet
a further acquire at instant 30 opens a new handle and returns true, so
the claim that no acquire may succeed once closed is false on this
reachable state. -/
theorem acquire_after_close_succeeds_cex :
    (runEv sampleInit [Ev.acquireEv none none [true] 0, Ev.closeEv 10,
        Ev.autoReleaseEv 20]).is_closed = true
    ∧ ((runEv sampleInit [Ev.acquireEv none none [true] 0, Ev.closeEv 10,
        Ev.autoReleaseEv 20]).acquire none none [true] 30).2.1 = true
    ∧ (((runEv sampleInit [Ev.acquireEv none none [true] 0, Ev.closeEv 10,
        Ev.autoReleaseEv 20]).acquire none none [true] 30).1)._db = some () :=
  ⟨rfl, rfl, rfl⟩

/-- C2 (amended): acquire never consults the closed flag.  On any manager
state whatever, closed or not, an acquire whose next engine open attempt
succeeds (or whose handle is already open) returns true, opens or keeps
the handle, and leaves the closed flag exactly as it was; so after close()
a subsequent acquire can succeed and reopen the handle. -/
theorem acquire_ignores_closed_flag (u : DBUnit) (ri tm : Option Int)
    (rest : List Bool) (now : Ms) :
    (u.acquire ri tm (true :: rest) now).2.1 = true
    ∧ ((u.acquire ri tm (true :: rest) now).1).is_closed = u.is_closed
    ∧ ((u.acquire ri tm (true :: rest) now).1)._db.isSome = true := by
  refine ⟨acquire_cons_true u ri tm rest now,
    (acquire_cases u ri tm (true :: rest) now).1, ?_⟩
  exact (acquire_cases u ri tm (true :: rest) now).2.2
    (acquire_cons_true u ri tm rest now)

/-- C3 counterexample: acquire with timeout 0 on a manager whose first open
attempt fails does not return false immediately: it runs the retry loop
(the return instant 100 shows one retry sleep of 100 ms) and returns true
on the second attempt. -/
theorem acquire_timeout_zero_retries_cex :
    (sampleInit.acquire none (some 0) [false, true] 0).2.1 = true
    ∧ (sampleInit.acquire none (some 0) [false, true] 0).2.2 = 100 :=
  ⟨rfl, rfl⟩

/-- C3 (amended): a timeout argument of 0 is falsy in the source and falls
back to the default timeout, so acquire(timeout=0) is literally the same
call as acquire with no timeout argument, retry loop included.  It is a
negative timeout that gives the immediate behavior: a single open attempt,
returning true when it succeeds, and false right after the one retry sleep
when it fails, with no further attempt. -/
theorem acquire_timeout_zero_uses_default (u : DBUnit) (ri : Option Int)
    (oracle rest : List Bool) (now : Nat) (t : Int) :
    (u.acquire ri (some 0) oracle now = u.acquire ri none oracle now)
    ∧ (t < 0 → u._db = none →
        u.acquire ri (some t) (false :: rest) now =
          (u, false, now + u._retry_interval))
    ∧ (t < 0 → (u.acquire ri (some t) (true :: rest) now).2.1 = true) := by
  refine ⟨rfl, ?_, fun _ => acquire_cons_true u ri (some t) rest now⟩
  intro ht hdb
  have hpy : pyOr (some t) u.default_timeout = t := by
    show (if t = 0 then u.default_timeout else t) = t
    rw [if_neg (show ¬ t = 0 by omega)]
  have hmax : max t 0 = 0 := max_eq_right (le_of_lt ht)
  have hz : (max (pyOr (some t) u.default_timeout) 0).toNat = (0 : Nat) := by
    rw [hpy, hmax]
    rfl
  show acquireLoop u (pyOr ri u._auto_release_interval)
      (now + (max (pyOr (some t) u.default_timeout) 0).toNat)
      (false :: rest) now true = (u, false, now + u._retry_interval)
  rw [hz, Nat.add_zero]
  exact acquireLoop_first_fail u _ rest now hdb

/-- Closed instance of acquire_timeout_zero_uses_default: with a negative
timeout and a failing first open attempt, acquire returns false after one
retry sleep. -/
theorem acquire_timeout_zero_uses_default_wit :
    sampleInit.acquire none (some (-1)) [false] 0 =
      (sampleInit, false, 0 + sampleInit._retry_interval) := by
  have h := acquire_timeout_zero_uses_default sampleInit none [] [] 0 (-1)
  exact h.2.1 (by decide) rfl

/-- C4 counterexample: with the handle open and the current concrete
deadline 5000, the update to the concrete instant 5400 differs from it by
400 ms, more than 100 ms, yet the update is silently ignored and the
maintenance loop is not notified. -/
theorem debounce_over_100ms_ignored_cex :
    sampleOpen._release_time = RT.time 5000
    ∧ sampleOpen.set_release_time (RTArg.instant 5400) 5400 =
        (sampleOpen, false)
    ∧ 100 < 5400 - 5000 :=
  ⟨rfl, rfl, by decide⟩

/-- C4 (amended): an update between two concrete deadlines is applied (and
the maintenance loop notified) exactly when the whole-second component of
their difference, in the Python timedelta.seconds sense that drops days
and sub-second parts, is at least 1; every smaller difference, including
all sub-second differences above 100 ms, is silently ignored.  A
transition from the indefinite sentinel to a concrete instant is always
applied with a wake, and a transition from any state to the sentinel is
always applied, without a wake. -/
theorem set_release_time_debounce_seconds (u : DBUnit) (cur t now : Nat) :
    (u._release_time = RT.time cur →
       ((1 ≤ (t - cur) / 1000 % 86400 ∨ 1 ≤ (cur - t) / 1000 % 86400 →
           u.set_release_time (RTArg.instant t) now =
             ({ u with _release_time := RT.time t }, true))
        ∧ ((t - cur) / 1000 % 86400 = 0 → (cur - t) / 1000 % 86400 = 0 →
           u.set_release_time (RTArg.instant t) now = (u, false))))
    ∧ (u._release_time = RT.inf →
       u.set_release_time (RTArg.instant t) now =
         ({ u with _release_time := RT.time t }, true))
    ∧ (u.set_release_time (RTArg.num INF_RELEASE_TIME) now =
       ({ u with _release_time := RT.inf }, false)) := by
  refine ⟨?_, ?_, rfl⟩
  · intro h
    constructor
    · intro hge
      show debounce_update u t = _
      rw [debounce_update_time u cur t h]
      rw [if_pos ((debounce_cond_iff cur t).mpr hge)]
    · intro hz hz2
      show debounce_update u t = _
      rw [debounce_update_time u cur t h]
      rw [if_neg (by rw [debounce_cond_iff cur t]; omega)]
  · intro h
    show debounce_update u t = _
    exact debounce_update_inf u t h

/-- Closed instance of set_release_time_debounce_seconds: an update from
deadline 5000 to 11000 (a six second difference) is applied with a wake. -/
theorem set_release_time_debounce_seconds_wit :
    sampleOpen.set_release_time (RTArg.instant 11000) 11000 =
      ({ sampleOpen with _release_time := RT.time 11000 }, true) := by
  have h := set_release_time_debounce_seconds sampleOpen 5000 11000 11000
  exact (h.1 (by rfl)).1 (by decide)

/-- C5: in every reachable state of the manager (started at construction or
at deserialization and evolved through any sequence of acquire, release,
suspend, restart, close and maintenance-loop events), an absent handle
forces the INF sentinel release time, never a concrete instant; and an
open handle always carries a release time that is either the sentinel
(indefinite) or a concrete instant. -/
theorem handle_deadline_invariant (p : String) (a d : Int) (r : Nat)
    (st : PickleState) (evs fvs : List Ev) :
    ((runEv (DBUnit.init p a r d) evs)._db = none →
       (runEv (DBUnit.init p a r d) evs)._release_time = RT.inf)
    ∧ ((runEv (DBUnit.__setstate__ st) fvs)._db = none →
       (runEv (DBUnit.__setstate__ st) fvs)._release_time = RT.inf)
    ∧ (∀ u : DBUnit, u._db ≠ none →
         u._release_time = RT.inf ∨ ∃ tt, u._release_time = RT.time tt) := by
  refine ⟨runEv_inv _ evs (fun _ => rfl), runEv_inv _ fvs (fun _ => rfl), ?_⟩
  intro u _
  cases h : u._release_time with
  | inf => exact Or.inl rfl
  | time tt => exact Or.inr ⟨tt, rfl⟩

/-- Closed instance of handle_deadline_invariant: after construction and a
release event the handle is absent, so the release time is the sentinel. -/
theorem handle_deadline_invariant_wit :
    (runEv (DBUnit.init "p" 5000 100 5000)
        [Ev.releaseEv 0])._release_time = RT.inf := by
  have h := handle_deadline_invariant "p" 5000 5000 100
    ⟨5000, "p", 5000, 100⟩ [Ev.releaseEv 0] []
  exact h.1 (by rfl)

/-- C6: the maintenance loop body waits exactly while the handle is absent,
the release time is the INF sentinel, or the concrete release time lies in
the future; it closes the handle, clears it and resets the release time to
the sentinel exactly in the states where the handle is open and its
concrete release time has passed, and in no other state. -/
theorem auto_release_only_after_deadline (u : DBUnit) (now : Ms) :
    (u.wait_predicate now = false ↔
       (u._db ≠ none ∧ ∃ t, u._release_time = RT.time t ∧ t ≤ now))
    ∧ (u.wait_predicate now = true → u.auto_release_step now = u)
    ∧ (u.wait_predicate now = false →
       (u.auto_release_step now)._db = none ∧
         (u.auto_release_step now)._release_time = RT.inf) := by
  refine ⟨?_, ?_, ?_⟩
  · unfold DBUnit.wait_predicate
    cases hdb : u._db with
    | none => simp
    | some x =>
        cases hrt : u._release_time with
        | inf => simp
        | time t => simp [Nat.not_lt]
  · intro h
    unfold DBUnit.auto_release_step
    simp [h]
  · intro h
    unfold DBUnit.auto_release_step
    simp [h]

/-- Closed instance of auto_release_only_after_deadline: with the handle
open and release time 5000, the maintenance body at instant 6000 clears
the handle and resets the release time. -/
theorem auto_release_only_after_deadline_wit :
    ((sampleOpen.auto_release_step 6000)._db = none ∧
      (sampleOpen.auto_release_step 6000)._release_time = RT.inf) := by
  have h := auto_release_only_after_deadline sampleOpen 6000
  exact h.2.2 (by rfl)

/-- C7 counterexample: a put on a manager whose handle is open with current
deadline 5000, issued at instant 500, succeeds but leaves the deadline at
5000: the claimed extension to now + auto_release_interval = 5500 is
debounced away, so the call does not extend the deadline to
now + auto_release_interval. -/
theorem facade_put_deadline_not_extended_cex :
    (DBUnit.put sampleOpen [] 1 2 [] 500).1 = Except.ok (sampleOpen, 500)
    ∧ sampleOpen._release_time = RT.time 5000
    ∧ RT.time 5000 ≠ RT.time (500 + 5000) :=
  ⟨rfl, rfl, by decide⟩

/-- C7 (amended): get, put and delete first run acquire with the default
release interval and default timeout; when it fails they raise the
acquisition failure without touching the engine (content unchanged, no
read); when it succeeds they delegate to the engine.  The deadline becomes
now + auto_release_interval whenever the handle had to be opened (or the
previous deadline was the indefinite sentinel); on an already-open handle
the extension is subject to the debounce and can be skipped. -/
theorem facade_requires_acquire_and_extends (u : DBUnit) (eng : Eng)
    (k v : Nat) (dflt : Option Nat) (oracle rest : List Bool) (now : Nat) :
    ((u.acquire none none oracle now).2.1 = false →
       u.put eng k v oracle now = (Except.error (), eng)
       ∧ u.delete eng k oracle now = (Except.error (), eng)
       ∧ u.get eng k dflt oracle now = Except.error ())
    ∧ ((u.acquire none none oracle now).2.1 = true →
       ∃ u2 n2, u.put eng k v oracle now = (Except.ok (u2, n2), (k, v) :: eng)
         ∧ u.get eng k dflt oracle now = Except.ok (u2, engGet eng k dflt, n2))
    ∧ (u._db = none → u._release_time = RT.inf →
        u._auto_release_interval ≠ INF_RELEASE_TIME →
       (u.put eng k v (true :: rest) now).1 =
         Except.ok
           ({ u with _db := some (), _release_time :=
                RT.time (now + (max 0 u._auto_release_interval).toNat) },
             now)) := by
  refine ⟨?_, ?_, ?_⟩
  · intro hf
    unfold DBUnit.put DBUnit.delete DBUnit.get
    rcases hA : u.acquire none none oracle now with ⟨u2, s, n2⟩
    rw [hA] at hf
    cases s
    · exact ⟨rfl, rfl, rfl⟩
    · exact Bool.noConfusion hf
  · intro hs
    unfold DBUnit.put DBUnit.get
    rcases hA : u.acquire none none oracle now with ⟨u2, s, n2⟩
    rw [hA] at hs
    cases s
    · exact Bool.noConfusion hs
    · exact ⟨u2, n2, rfl, rfl⟩
  · intro hdb hrt hne
    have hacq : u.acquire none none (true :: rest) now =
        ({ u with _db := some (), _release_time :=
             RT.time (now + (max 0 u._auto_release_interval).toNat) },
          true, now) := by
      rw [acquire_open_success u none none rest now hdb]
      rw [srt_num_inf ({ u with _db := some () })
        (pyOr none u._auto_release_interval) now (by exact hrt) (by exact hne)]
      rfl
    unfold DBUnit.put
    rw [hacq]

/-- Closed instance of facade_requires_acquire_and_extends: a put on a
fresh manager opens the handle and sets the deadline to
now + auto_release_interval. -/
theorem facade_requires_acquire_and_extends_wit :
    (DBUnit.put sampleInit [] 1 2 [true] 0).1 =
      Except.ok
        ({ sampleInit with
            _db := some (),
            _release_time :=
              RT.time (0 + (max 0 sampleInit._auto_release_interval).toNat) },
          0) := by
  have h := facade_requires_acquire_and_extends sampleInit [] 1 2 none
    [true] [] 0
  exact h.2.2 rfl rfl (by decide)

/-- C8 counterexample: on a manager holding the indefinite lease taken by
the scoped-context entry, an exit with an exception re-raises at once and
performs no release: the manager is left untouched, still holding the
indefinite lease, so release does not happen on every exit path. -/
theorem ctx_exit_exception_skips_release_cex :
    sampleSuspended._release_time = RT.inf
    ∧ (sampleSuspended.__exit__ true 10).1 = sampleSuspended
    ∧ (sampleSuspended.__exit__ true 10).2 = true :=
  ⟨rfl, rfl, rfl⟩

/-- C8 (amended): scoped-context entry performs an indefinite acquire (the
resulting state always carries the INF sentinel deadline), and exit
releases only on normal completion, setting the deadline to the exit
instant; an exit with an exception re-raises before the release statement,
leaving the manager state untouched. -/
theorem ctx_enter_indefinite_exit_release_normal_only (u w : DBUnit)
    (rest : List Bool) (now m : Nat) :
    (∃ u2 n2, u.__enter__ (true :: rest) now = Except.ok (u2, n2)
       ∧ u2._release_time = RT.inf)
    ∧ (w.__exit__ true m = (w, true))
    ∧ (w._db.isSome = true → w._release_time = RT.inf →
        ((w.__exit__ false m).1._release_time = RT.time m
          ∧ (w.__exit__ false m).2 = false)) := by
  refine ⟨?_, rfl, ?_⟩
  · rcases hdb : u._db with _ | x
    · refine ⟨{ u with _db := some (), _release_time := RT.inf }, now, ?_, rfl⟩
      unfold DBUnit.__enter__
      rw [acquire_open_success u (some INF_RELEASE_TIME) none rest now hdb]
      rfl
    · refine ⟨{ u with _release_time := RT.inf }, now, ?_, rfl⟩
      unfold DBUnit.__enter__
      rw [acquire_acquired_success u (some INF_RELEASE_TIME) none
        (true :: rest) now (by unfold DBUnit.is_acquired; rw [hdb]; rfl)]
      rfl
  · intro h1 h2
    exact ⟨release_inf_sets_now w m h1 h2, rfl⟩

/-- Closed instance of ctx_enter_indefinite_exit_release_normal_only: a
normal exit on the suspended sample manager sets the deadline to the exit
instant. -/
theorem ctx_enter_indefinite_exit_release_normal_only_wit :
    (sampleSuspended.__exit__ false 9).1._release_time = RT.time 9 := by
  have h := ctx_enter_indefinite_exit_release_normal_only sampleInit
    sampleSuspended [] 0 9
  exact (h.2.2 rfl rfl).1

/-- C9: serialization captures exactly the four configuration fields (two
managers have equal __getstate__ exactly when they agree on path,
auto_release_interval, retry_interval and default_timeout, whatever their
handle, release time or closed flag), and deserializing the captured state
rebuilds those four values with fresh runtime state: no handle, the INF
sentinel release time, not closed. -/
theorem pickle_config_roundtrip (u : DBUnit) :
    (DBUnit.__setstate__ u.__getstate__).path = u.path
    ∧ (DBUnit.__setstate__ u.__getstate__).default_timeout = u.default_timeout
    ∧ (DBUnit.__setstate__ u.__getstate__)._auto_release_interval =
        u._auto_release_interval
    ∧ (DBUnit.__setstate__ u.__getstate__)._retry_interval = u._retry_interval
    ∧ (DBUnit.__setstate__ u.__getstate__)._db = none
    ∧ (DBUnit.__setstate__ u.__getstate__)._release_time = RT.inf
    ∧ (DBUnit.__setstate__ u.__getstate__).is_closed = false
    ∧ (∀ w : DBUnit, w.__getstate__ = u.__getstate__ ↔
        (w.path = u.path ∧ w.default_timeout = u.default_timeout
         ∧ w._auto_release_interval = u._auto_release_interval
         ∧ w._retry_interval = u._retry_interval)) := by
  refine ⟨rfl, rfl, rfl, rfl, rfl, rfl, rfl, ?_⟩
  intro w
  unfold DBUnit.__getstate__
  rw [PickleState.mk.injEq]
  tauto

/-- Closed instance of pickle_config_roundtrip: deserializing the state
captured from the open sample manager yields an absent handle and the
sentinel release time. -/
theorem pickle_config_roundtrip_wit :
    (DBUnit.__setstate__ sampleOpen.__getstate__)._db = none
    ∧ (DBUnit.__setstate__ sampleOpen.__getstate__)._release_time = RT.inf := by
  have h := pickle_config_roundtrip sampleOpen
  exact ⟨h.2.2.2.2.1, h.2.2.2.2.2.1⟩

/-- C10: a non-transactional scoped batch whose scope exits with an
exception still commits all buffered writes to the engine, clears its
buffer and releases the lease (deadline set to the exit instant); only a
transactional batch discards its buffered writes on an in-scope exception,
leaving the engine and the manager untouched. -/
theorem nontransactional_exit_commits_and_releases (b c : WriteBatch)
    (u : DBUnit) (eng : Eng) (now : Nat)
    (hb : b.transaction = false) (hdb : u._db.isSome = true)
    (hrt : u._release_time = RT.inf) :
    ((b.__exit__ u eng true now).2.2 = engWrite eng b.buffer)
    ∧ ((b.__exit__ u eng true now).2.1._release_time = RT.time now)
    ∧ ((b.__exit__ u eng true now).1.buffer = [])
    ∧ (c.transaction = true →
        (c.__exit__ u eng true now).2.2 = eng
        ∧ (c.__exit__ u eng true now).2.1 = u) := by
  have hexit : b.__exit__ u eng true now =
      ({ b with buffer := [] }, u.release now, engWrite eng b.buffer) := by
    unfold WriteBatch.__exit__
    rw [hb]
    rfl
  refine ⟨?_, ?_, ?_, ?_⟩
  · rw [hexit]
  · rw [hexit]
    exact release_inf_sets_now u now hdb hrt
  · rw [hexit]
  · intro hc
    unfold WriteBatch.__exit__
    rw [hc]
    exact ⟨rfl, rfl⟩

/-- Closed instance of nontransactional_exit_commits_and_releases: a
non-transactional batch with one buffered write, exiting with an
exception, commits the write and sets the deadline to the exit instant. -/
theorem nontransactional_exit_commits_and_releases_wit :
    (WriteBatch.__exit__ ⟨false, false, [(1, 2)]⟩ sampleSuspended []
        true 5).2.2 = [(1, 2)]
    ∧ (WriteBatch.__exit__ ⟨false, false, [(1, 2)]⟩ sampleSuspended []
        true 5).2.1._release_time = RT.time 5 := by
  have h := nontransactional_exit_commits_and_releases
    ⟨false, false, [(1, 2)]⟩ ⟨true, false, []⟩ sampleSuspended [] 5
    rfl rfl rfl
  exact ⟨h.1, h.2.1⟩

/-- C1 counterexample: a transactional batch on a manager holding the
indefinite lease, whose scope exits with an exception, leaves the manager
completely untouched: the indefinite lease is never released on this exit
path, falsifying release-on-every-exit-path. -/
theorem wb_transactional_exc_keeps_indefinite_lease :
    (WriteBatch.__exit__ ⟨true, false, [(1, 2)]⟩ sampleSuspended []
        true 5).2.1 = sampleSuspended
    ∧ (WriteBatch.__exit__ ⟨true, false, [(1, 2)]⟩ sampleSuspended []
        true 5).2.1._release_time = RT.inf :=
  ⟨rfl, rfl⟩

/-- C1 (amended): the scoped batch releases its lease on normal completion,
early termination and, for a non-transactional batch, on a propagated
error; the scoped iterator releases whenever its close runs (which the
generator finally guarantees on exhaustion, explicit close or generator
shutdown once iteration has started).  The two exit paths the source does
not cover: a transactional batch whose scope exits with an exception keeps
the manager state, and with it the indefinite lease, untouched; and an
iterator object created by the iterator() facade but never advanced holds
the indefinite lease taken by the facade while its finalizer does
nothing. -/
theorem scoped_exit_release_paths (b : WriteBatch) (u w : DBUnit)
    (eng : Eng) (it : Iterator) (rest : List Bool) (exc ik iv : Bool)
    (now m : Nat) :
    ((b.transaction && exc) = false → u._db.isSome = true →
       u._release_time = RT.inf →
       (b.__exit__ u eng exc now).2.1._release_time = RT.time now)
    ∧ (b.transaction = true → (b.__exit__ u eng true now).2.1 = u)
    ∧ (w._db.isSome = true → w._release_time = RT.inf →
        ((it.close w m).2._release_time = RT.time m
          ∧ (it.close w m).1.iterator = false))
    ∧ (it.iterator = false → it.__del__ w m = (it, w))
    ∧ (u._db = none →
        ∃ it2 u2 n2, u.iterator ik iv (true :: rest) now =
          Except.ok (it2, u2, n2)
          ∧ it2.iterator = false ∧ u2._release_time = RT.inf) := by
  refine ⟨?_, ?_, ?_, ?_, ?_⟩
  · intro hbe hdb hrt
    unfold WriteBatch.__exit__
    rw [hbe]
    exact release_inf_sets_now u now hdb hrt
  · intro hbt
    unfold WriteBatch.__exit__
    rw [hbt]
    rfl
  · intro h1 h2
    exact ⟨release_inf_sets_now w m h1 h2, rfl⟩
  · intro hit
    unfold Iterator.__del__
    rw [hit]
    rfl
  · intro hdb
    refine ⟨{ include_key := ik, include_value := iv, iterator := false },
      { u with _db := some (), _release_time := RT.inf }, now, ?_, rfl, rfl⟩
    unfold DBUnit.iterator
    rw [acquire_open_success u (some INF_RELEASE_TIME) none rest now hdb]
    rfl

/-- Closed instance of scoped_exit_release_paths: a non-transactional batch
exiting with an exception on the suspended sample manager releases the
lease at the exit instant. -/
theorem scoped_exit_release_paths_wit :
    (WriteBatch.__exit__ ⟨false, false, [(3, 4)]⟩ sampleSuspended []
        true 7).2.1._release_time = RT.time 7 := by
  have h := scoped_exit_release_paths ⟨false, false, [(3, 4)]⟩
    sampleSuspended sampleSuspended [] ⟨true, true, false⟩ [] true true
    true 7 0
  exact h.1 rfl rfl rfl

end Slicely
